import Mathlib

/-!
Shallow embedding of `rehype-autolink-headings` (src/lib/index.js): a single
tree-transform pass that attaches self-referencing anchor links to heading
elements carrying an `id` property.
-/

namespace Rehype

/-- A JS property value as it occurs in hast property maps: string, boolean,
number, or list of strings. -/
inductive PropVal where
  | str : String → PropVal
  | bool : Bool → PropVal
  | num : Int → PropVal
  | strs : List String → PropVal
deriving Repr, DecidableEq

/-- A hast `Properties` map.  Represented as an association list in insertion
order; lookup is last-write-wins, matching JS object-spread semantics where a
later entry for the same key overrides an earlier one. -/
abbrev Props := List (String × PropVal)

/-- Look a key up in a property map; the last entry for the key wins, matching
the JS object built by spreads such as `\x7b...props, href: ...\x7d`. -/
def getProp (p : Props) (k : String) : Option PropVal :=
  match p with
  | [] => none
  | (k', v) :: rest =>
    match getProp rest k with
    | some v' => some v'
    | none => if k' = k then some v else none

/-- JS truthiness of an optional property value (`node.properties.id && ...`):
a missing value, empty string, `false` and `0` are falsy; arrays are truthy. -/
def truthy : Option PropVal → Bool
  | none => false
  | some (.str s) => s != ""
  | some (.bool b) => b
  | some (.num n) => n != 0
  | some (.strs _) => true

/-- JS string coercion of an optional property value, as performed by
`'#' + node.properties.id`. -/
def jsString : Option PropVal → String
  | none => "undefined"
  | some (.str s) => s
  | some (.bool b) => if b then "true" else "false"
  | some (.num n) => toString n
  | some (.strs l) => String.intercalate "," l

/-- A hast `ElementContent` node: an element with tag name, properties and
children, or a text node, or a comment node. -/
inductive Node where
  | element (tagName : String) (properties : Props) (children : List Node)
  | text (value : String)
  | comment (value : String)

/-- A hast `Root`: the document node holding the top-level children. -/
structure Root where
  children : List Node

/-- The property map of a node (`node.properties`); non-elements have none. -/
def nodeProperties : Node → Props
  | .element _ p _ => p
  | _ => []

/-- ASCII lowercasing of a character, as `String.prototype.toLowerCase` acts
on ASCII tag names. -/
def lowerChar (c : Char) : Char :=
  if 'A' ≤ c ∧ c ≤ 'Z' then Char.ofNat (c.toNat + 32) else c

/-- ASCII lowercasing of a string. -/
def lowerString (s : String) : String :=
  ⟨s.data.map lowerChar⟩

/-- The `hast-util-heading-rank` utility: the rank (1-6) of `h1`..`h6` elements
(case-insensitive), and `none` for everything else. -/
def headingRank (n : Node) : Option Nat :=
  match n with
  | .element t _ _ =>
    match (lowerString t).data with
    | ['h', c] =>
      if 48 < c.toNat ∧ c.toNat < 55 then some (c.toNat - 48) else none
    | _ => none
  | _ => none

/-- The result of materializing a content or grouping template: either a
single `ElementContent` node or an array of them
(`Array<ElementContent> | ElementContent`). -/
inductive ContentValue where
  | one : Node → ContentValue
  | many : List Node → ContentValue

/-- A content or grouping template: static data (a single node or an array of
nodes) or a `Build` generator function from the current heading. -/
inductive Tmpl where
  | val : ContentValue → Tmpl
  | build : (Node → ContentValue) → Tmpl

/-- Deep clone (`structuredClone`).  In this pure value model a structural
copy is the value itself; the identity-level freshness of each copy is
modelled separately by `cloneAlloc` on identity-annotated nodes. -/
def clone {α : Type} (thing : α) : α :=
  thing

/-- Turn a template into a node or array of nodes: invoke a generator with
the heading, deep-clone static data. -/
def toNode (value : Tmpl) (node : Node) : ContentValue :=
  match value with
  | .build f => f node
  | .val v => clone v

/-- Turn a template into children: wrap a single resulting node into a
one-element array. -/
def toChildren (value : Tmpl) (node : Node) : List Node :=
  match toNode value node with
  | .many l => l
  | .one n => [n]

/-- A properties template: a static property map or a `BuildProperties`
generator function from the current heading. -/
inductive PropsTmpl where
  | val : Props → PropsTmpl
  | build : (Node → Props) → PropsTmpl

/-- Turn a properties template into properties: invoke a generator with the
heading, deep-clone a static map, and produce an empty map when absent. -/
def toProperties (value : Option PropsTmpl) (node : Node) : Props :=
  match value with
  | some (.build f) => f node
  | some (.val p) => clone p
  | none => []

/-- Create an `a` element for a heading: the configured extra properties
spread first, then `href` set to `#` plus the heading's `id` read at creation
time, overriding any same-key entry from the spread. -/
def create (node : Node) (props : Props) (children : List Node) : Node :=
  .element "a"
    (props ++ [("href", .str ("#" ++ jsString (getProp (nodeProperties node) "id")))])
    children

/-- The default content template: `<span class="icon icon-link"></span>`. -/
def contentDefaults : Node :=
  .element "span" [("className", .strs ["icon", "icon-link"])] []

/-- User-supplied plugin options; every field is optional
(`null`/`undefined` modelled as `none`).  The heading filter `test` is
modelled as the compiled predicate over the visited element. -/
structure Options where
  behavior : Option String
  content : Option Tmpl
  group : Option Tmpl
  properties : Option PropsTmpl
  test : Option (Node → Bool)

/-- The settings closed over by the returned transform after the option
resolution at the top of `rehypeAutolinkHeadings`. -/
structure Config where
  behavior : String
  content : Tmpl
  group : Option Tmpl
  props : Option PropsTmpl
  test : Node → Bool

/-- The strategy selected by the `switch` on `behavior`: `after`/`before`
pick `around`, `wrap` picks `wrap`, `substitute` picks `substitute`, and
every other string falls to the `default` case picking `inject`. -/
inductive Method where
  | around
  | wrapM
  | substituteM
  | inject
deriving DecidableEq

/-- The `switch (behavior)` statement selecting the visitor method. -/
def chooseMethod (behavior : String) : Method :=
  if behavior = "after" ∨ behavior = "before" then .around
  else if behavior = "wrap" then .wrapM
  else if behavior = "substitute" then .substituteM
  else .inject

/-- Resolve options as the body of `rehypeAutolinkHeadings` does:
`behavior` defaults to `prepend` when falsy, `content` to the icon span when
falsy, and `properties` is defaulted inside the `switch`: `\x7btabIndex: -1\x7d`
for `substitute` and `\x7bariaHidden: 'true', tabIndex: -1\x7d` in the default
case (`append`, `prepend` and unrecognized strings); `after`/`before`/`wrap`
leave it untouched.  An absent `test` accepts every element. -/
def resolveConfig (o : Options) : Config :=
  let behavior :=
    match o.behavior with
    | some s => if s = "" then "prepend" else s
    | none => "prepend"
  let content :=
    match o.content with
    | some t => t
    | none => .val (.one contentDefaults)
  let props :=
    match chooseMethod behavior with
    | .around => o.properties
    | .wrapM => o.properties
    | .substituteM =>
      match o.properties with
      | some p => some p
      | none => some (.val [("tabIndex", .num (-1))])
    | .inject =>
      match o.properties with
      | some p => some p
      | none => some (.val [("ariaHidden", .str "true"), ("tabIndex", .num (-1))])
  let test :=
    match o.test with
    | some f => f
    | none => fun _ => true
  ⟨behavior, content, o.group, props, test⟩

/-- The traversal directive a visitor returns: `cont` (JS `undefined`)
descends into the children, `skip` (`[SKIP]`) skips the subtree, and
`skipTo i` (`[SKIP, i]`) additionally resumes the parent's iteration at
child index `i`. -/
inductive Action where
  | cont
  | skip
  | skipTo (i : Nat)
deriving DecidableEq

/-- The link built for a heading by `inject`, `substitute` and `around`:
`create(node, toProperties(props, node), toChildren(content, node))`. -/
def headingLink (cfg : Config) (node : Node) : Node :=
  create node (toProperties cfg.props node) (toChildren cfg.content node)

/-- The `inject` visitor (behaviors `prepend`, `append` and unrecognized
strings): unshift the link as first child when behavior is exactly
`prepend`, otherwise push it as last child; skip the heading's subtree. -/
def inject (cfg : Config) (node : Node) : Node × Action :=
  match node with
  | .element t p cs =>
    let link := headingLink cfg node
    (.element t p (if cfg.behavior = "prepend" then link :: cs else cs ++ [link]), .skip)
  | _ => (node, .skip)

/-- The `wrap` visitor: replace the heading's children with a single link
wrapping the heading's original children; skip the subtree. -/
def wrap (cfg : Config) (node : Node) : Node × Action :=
  match node with
  | .element t p cs =>
    (.element t p [create node (toProperties cfg.props node) cs], .skip)
  | _ => (node, .skip)

/-- The `substitute` visitor: replace the heading's children with a single
link whose children are materialized from the content template; skip the
subtree. -/
def substitute (cfg : Config) (node : Node) : Node × Action :=
  match node with
  | .element t p _ =>
    (.element t p [headingLink cfg node], .skip)
  | _ => (node, .skip)

/-- The ungrouped sibling pair built by `around`: link then heading for
`before`, heading then link otherwise. -/
def linkPair (cfg : Config) (node : Node) : List Node :=
  if cfg.behavior = "before" then [headingLink cfg node, node]
  else [node, headingLink cfg node]

/-- The sibling sequence `around` splices in place of the heading: link
before or after the heading per behavior, wrapped into the grouping element
(whose own children are discarded and replaced by the pair) exactly when the
materialized grouping value is one element node. -/
def aroundNodes (cfg : Config) (node : Node) : List Node :=
  let nodes := linkPair cfg node
  match cfg.group with
  | some g =>
    match toNode g node with
    | .one (.element gt gp _) => [.element gt gp nodes]
    | _ => nodes
  | none => nodes

/-- The `Array.prototype.splice(index, del, ...new)` operation restricted to what `around`
uses: replace `del` elements at `index` by `new`. -/
def splice (cs : List Node) (index del : Nat) (new : List Node) : List Node :=
  cs.take index ++ new ++ cs.drop (index + del)

/-- The `around` visitor (behaviors `before` and `after`): without a numeric
index or a parent it returns without mutating anything; otherwise it splices
`aroundNodes` over the heading's slot in the parent's children and resumes
traversal at the index just past the spliced-in nodes.  The first component
is the parent's (possibly updated) child list. -/
def around (cfg : Config) (node : Node) (index : Option Nat)
    (parentChildren : Option (List Node)) : Option (List Node) × Action :=
  match index, parentChildren with
  | some i, some cs =>
    let nodes := aroundNodes cfg node
    (some (splice cs i 1 nodes), .skipTo (i + nodes.length))
  | _, _ => (parentChildren, .cont)

/-- The guard of the visitor callback: the node is a heading
(`headingRank(node)` truthy), its `id` property is truthy, and the
configured test accepts it. -/
def isTarget (cfg : Config) (n : Node) : Bool :=
  (headingRank n).isSome && truthy (getProp (nodeProperties n) "id") && cfg.test n

mutual

/-- Descend into a non-matching node, visiting its children. -/
def transformNode (cfg : Config) : Node → Node
  | .element t p cs => .element t p (transformNodes cfg cs)
  | .text s => .text s
  | .comment s => .comment s

/-- Visit a sibling list in document order, as `unist-util-visit` iterates a
parent's children.  A matching heading is handled by the selected method and
its result is not descended into: `inject`/`wrap`/`substitute` return `SKIP`
so the (mutated) heading subtree is skipped, and `around` resumes at the
index just past the spliced-in nodes, which in list form means the spliced
nodes are emitted unvisited and traversal continues with the remaining
original siblings. -/
def transformNodes (cfg : Config) : List Node → List Node
  | [] => []
  | n :: rest =>
    if isTarget cfg n then
      (match chooseMethod cfg.behavior with
        | .inject => [(inject cfg n).1]
        | .wrapM => [(wrap cfg n).1]
        | .substituteM => [(substitute cfg n).1]
        | .around => aroundNodes cfg n) ++ transformNodes cfg rest
    else
      transformNode cfg n :: transformNodes cfg rest

end

/-- The plugin: resolve options once, then transform a tree by visiting
every element. -/
def rehypeAutolinkHeadings (options : Option Options) (tree : Root) : Root :=
  match options with
  | some o => ⟨transformNodes (resolveConfig o) tree.children⟩
  | none =>
    ⟨transformNodes (resolveConfig ⟨none, none, none, none, none⟩) tree.children⟩

/-- Sample heading: `<h2 id="intro">Intro</h2>`. -/
def hIntro : Node :=
  .element "h2" [("id", .str "intro")] [.text "Intro"]

/-- The link injected for `hIntro` under the default options. -/
def linkIntroDefault : Node :=
  .element "a"
    [("ariaHidden", .str "true"), ("tabIndex", .num (-1)), ("href", .str "#intro")]
    [contentDefaults]

/-- A resolved configuration: behavior `before`, defaults otherwise. -/
def cfgBefore : Config :=
  ⟨"before", .val (.one contentDefaults), none, none, fun _ => true⟩

/-- A resolved configuration: behavior `before` with a `<div>` grouping
template. -/
def cfgBeforeGrouped : Config :=
  ⟨"before", .val (.one contentDefaults), some (.val (.one (.element "div" [] []))),
    none, fun _ => true⟩

/-- Sample inner heading with an id, nested below `hOuterNoId`. -/
def hInner : Node :=
  .element "h2" [("id", .str "x")] [.text "T"]

/-- Sample heading without an id whose only child is the qualifying heading
`hInner`. -/
def hOuterNoId : Node :=
  .element "h1" [] [hInner]

/-!
Identity-level model of `clone` (`structuredClone`).  The pure value model
above cannot express JS object identity, so nodes are annotated with an
allocation identity `nid`; `structuredClone` rebuilds the whole subtree out
of freshly allocated objects, modelled by handing out ids from a counter.
`toNode`'s static-template branch performs exactly one such clone per
heading, so materializations for two headings in one run are two successive
`cloneAlloc` calls on the same template value.
-/

/-- A hast node annotated with its object identity `nid`. -/
inductive ANode where
  | element (nid : Nat) (tagName : String) (properties : Props) (children : List ANode)
  | text (nid : Nat) (value : String)
  | comment (nid : Nat) (value : String)

mutual

/-- Identity-level `structuredClone`: rebuild the node with a fresh
identity for every node of the copy, drawing ids from the counter. -/
def cloneAlloc : ANode → Nat → ANode × Nat
  | .element _ t p cs, c =>
    let r := cloneAllocList cs (c + 1)
    (.element c t p r.1, r.2)
  | .text _ s, c => (.text c s, c + 1)
  | .comment _ s, c => (.comment c s, c + 1)

/-- The `cloneAlloc` traversal over a child list, threading the allocation counter. -/
def cloneAllocList : List ANode → Nat → List ANode × Nat
  | [], c => ([], c)
  | n :: rest, c =>
    let r := cloneAlloc n c
    let r' := cloneAllocList rest r.2
    (r.1 :: r'.1, r'.2)

end

mutual

/-- The object identities occurring in a subtree. -/
def idsA : ANode → List Nat
  | .element i _ _ cs => i :: idsListA cs
  | .text i _ => [i]
  | .comment i _ => [i]

/-- The object identities occurring in a list of subtrees. -/
def idsListA : List ANode → List Nat
  | [] => []
  | n :: rest => idsA n ++ idsListA rest

end

mutual

/-- Forget identities, recovering the plain value-level node. -/
def eraseA : ANode → Node
  | .element _ t p cs => .element t p (eraseListA cs)
  | .text _ s => .text s
  | .comment _ s => .comment s

/-- Forget identities on a list of subtrees. -/
def eraseListA : List ANode → List Node
  | [] => []
  | n :: rest => eraseA n :: eraseListA rest

end

/-- Sample identity-annotated static template (an icon span holding a text
node), with identities 0 and 1. -/
def tmpl0 : ANode :=
  .element 0 "span" [("className", .strs ["icon", "icon-link"])] [.text 1 "x"]

/-- Two adjacent step-one ranges concatenate. -/
theorem range_append_one (s m n : Nat) :
    List.range' s m ++ List.range' (s + m) n = List.range' s (m + n) := by
  have h := List.range'_append s m n 1
  simp only [one_mul] at h
  rw [Nat.add_comm n m] at h
  exact h

mutual

/-- A clone's identities are exactly the fresh range handed out by the
counter, the counter advances by the subtree's size, and the clone is
structurally equal to the original. -/
theorem cloneAlloc_spec (t : ANode) (c : Nat) :
    idsA (cloneAlloc t c).1 = List.range' c (idsA t).length ∧
    (cloneAlloc t c).2 = c + (idsA t).length ∧
    eraseA (cloneAlloc t c).1 = eraseA t := by
  match t with
  | .element i tg p cs =>
    have ih := cloneAllocList_spec cs (c + 1)
    refine ⟨?_, ?_, ?_⟩ <;>
      (simp [cloneAlloc, idsA, eraseA, ih.1, ih.2.1, ih.2.2, List.range'_succ]; try omega)
  | .text i s =>
    refine ⟨?_, ?_, ?_⟩ <;> simp [cloneAlloc, idsA, eraseA, List.range'_succ]
  | .comment i s =>
    refine ⟨?_, ?_, ?_⟩ <;> simp [cloneAlloc, idsA, eraseA, List.range'_succ]

/-- List version of `cloneAlloc_spec`. -/
theorem cloneAllocList_spec (ts : List ANode) (c : Nat) :
    idsListA (cloneAllocList ts c).1 = List.range' c (idsListA ts).length ∧
    (cloneAllocList ts c).2 = c + (idsListA ts).length ∧
    eraseListA (cloneAllocList ts c).1 = eraseListA ts := by
  match ts with
  | [] =>
    refine ⟨?_, ?_, ?_⟩ <;> simp [cloneAllocList, idsListA, eraseListA]
  | n :: rest =>
    have ihn := cloneAlloc_spec n c
    have ihr := cloneAllocList_spec rest (c + (idsA n).length)
    have h2 : (cloneAlloc n c).2 = c + (idsA n).length := ihn.2.1
    refine ⟨?_, ?_, ?_⟩
    · simp only [cloneAllocList, idsListA, h2, ihn.1, ihr.1, List.length_append]
      exact range_append_one c (idsA n).length (idsListA rest).length
    · simp only [cloneAllocList, idsListA, h2, ihr.2.1, List.length_append]
      omega
    · simp only [cloneAllocList, eraseListA, h2, ihn.2.2, ihr.2.2]

end

/-- Appending an entry for a key makes it the looked-up value, whatever the
earlier entries were: JS `\x7b...props, href: v\x7d` semantics. -/
theorem getProp_append_last (p : Props) (k : String) (v : PropVal) :
    getProp (p ++ [(k, v)]) k = some v := by
  induction p with
  | nil => simp [getProp]
  | cons kv rest ih => simp [getProp, ih]

/-- C1: for every heading processed, the constructed link element's `href`
property equals `#` concatenated with the heading's `id` property as read at
processing time, and this computed reference overrides any same-key entry
supplied by the configured properties template (static or generated), since
every strategy builds the link through `create`. -/
theorem C1_link_href_computed (node : Node) (props : Props) (children : List Node) :
    getProp (nodeProperties (create node props children)) "href" =
      some (.str ("#" ++ jsString (getProp (nodeProperties node) "id"))) := by
  simp [create, nodeProperties, getProp_append_last]

/-- C4 (amended): with no properties template supplied, the link's extra
properties default to `ariaHidden` bound to the string `"true"` together
with `tabIndex: -1` for `append` and `prepend`, to `tabIndex: -1` alone for
`substitute`, and to the empty map for `before`, `after` and `wrap`. -/
theorem C4_default_properties (c g : Option Tmpl) (tf : Option (Node → Bool)) :
    (resolveConfig ⟨some "append", c, g, none, tf⟩).props =
      some (.val [("ariaHidden", .str "true"), ("tabIndex", .num (-1))]) ∧
    (resolveConfig ⟨some "prepend", c, g, none, tf⟩).props =
      some (.val [("ariaHidden", .str "true"), ("tabIndex", .num (-1))]) ∧
    (resolveConfig ⟨some "substitute", c, g, none, tf⟩).props =
      some (.val [("tabIndex", .num (-1))]) ∧
    (resolveConfig ⟨some "before", c, g, none, tf⟩).props = none ∧
    (resolveConfig ⟨some "after", c, g, none, tf⟩).props = none ∧
    (resolveConfig ⟨some "wrap", c, g, none, tf⟩).props = none ∧
    (∀ n, toProperties none n = []) := by
  refine ⟨rfl, rfl, rfl, rfl, rfl, rfl, fun n => rfl⟩

/-- C4 counterexample: the claim binds `ariaHidden` to the boolean `true`,
but the resolved default for `prepend` binds it to the string `"true"`, a
different property value. -/
theorem C4_counterexample :
    (resolveConfig ⟨some "prepend", none, none, none, none⟩).props ≠
      some (.val [("ariaHidden", .bool true), ("tabIndex", .num (-1))]) ∧
    (resolveConfig ⟨some "prepend", none, none, none, none⟩).props =
      some (.val [("ariaHidden", .str "true"), ("tabIndex", .num (-1))]) := by
  refine ⟨?_, rfl⟩
  intro h
  simp only [resolveConfig, chooseMethod] at h
  simp at h

/-- C8: for behaviors `before` and `after`, a visited heading without a
numeric sibling index or without a parent is skipped silently: `around`
performs no mutation (the parent's children, when present, are returned
unchanged) and continues traversal, affecting nothing else. -/
theorem C8_around_noop (cfg : Config) (node : Node) (index : Option Nat)
    (parentChildren : Option (List Node))
    (h : index = none ∨ parentChildren = none) :
    around cfg node index parentChildren = (parentChildren, .cont) := by
  rcases h with h | h
  · subst h
    cases parentChildren <;> rfl
  · subst h
    cases index <;> rfl

/-- Witness for C8 at a concrete input: the root-element case, with no index
and no parent. -/
theorem C8_witness :
    ((none : Option Nat) = none ∨ (none : Option (List Node)) = none) ∧
    around cfgBefore hIntro none none = (none, .cont) :=
  ⟨Or.inl rfl, C8_around_noop cfgBefore hIntro none none (Or.inl rfl)⟩

/-- C9: every placement strategy returns a skip directive:
`inject`/`wrap`/`substitute` return `SKIP`, skipping the heading's whole
subtree, `around` reports a resumption index equal to the original index
plus the number of spliced-in nodes, and consequently the traversal emits a
handled heading's replacement nodes without re-descending into them in this
pass. -/
theorem C9_skip_directives :
    (∀ cfg n, (inject cfg n).2 = Action.skip ∧ (wrap cfg n).2 = Action.skip ∧
      (substitute cfg n).2 = Action.skip) ∧
    (∀ cfg n i cs, (around cfg n (some i) (some cs)).2 =
      Action.skipTo (i + (aroundNodes cfg n).length)) ∧
    (∀ cfg n rest, isTarget cfg n = true →
      (chooseMethod cfg.behavior = Method.around →
        transformNodes cfg (n :: rest) = aroundNodes cfg n ++ transformNodes cfg rest) ∧
      (chooseMethod cfg.behavior = Method.inject →
        transformNodes cfg (n :: rest) = (inject cfg n).1 :: transformNodes cfg rest) ∧
      (chooseMethod cfg.behavior = Method.wrapM →
        transformNodes cfg (n :: rest) = (wrap cfg n).1 :: transformNodes cfg rest) ∧
      (chooseMethod cfg.behavior = Method.substituteM →
        transformNodes cfg (n :: rest) = (substitute cfg n).1 :: transformNodes cfg rest)) := by
  refine ⟨?_, ?_, ?_⟩
  · intro cfg n
    refine ⟨?_, ?_, ?_⟩ <;> cases n <;> rfl
  · intro cfg n i cs
    rfl
  · intro cfg n rest ht
    refine ⟨?_, ?_, ?_, ?_⟩ <;> intro hm <;> simp [transformNodes, ht, hm]

/-- Witness for C9 at a concrete input: behavior `before` on the sample
heading. -/
theorem C9_witness :
    isTarget cfgBefore hIntro = true ∧
    chooseMethod cfgBefore.behavior = Method.around ∧
    transformNodes cfgBefore [hIntro] =
      aroundNodes cfgBefore hIntro ++ transformNodes cfgBefore [] :=
  ⟨by decide, by decide,
    (C9_skip_directives.2.2 cfgBefore hIntro [] (by decide)).1 (by decide)⟩

/-- C5 (amended): a heading element whose property map lacks a truthy
identifier is never handed to a placement strategy: its tag and properties
are unchanged and no link is inserted at it; traversal still descends into
its children, so a qualifying descendant heading is still processed (and a
subtree with no qualifying descendant is unchanged). -/
theorem C5_no_id_skipped (cfg : Config) (t : String) (p : Props) (cs rest : List Node)
    (h : truthy (getProp p "id") = false) :
    transformNodes cfg (Node.element t p cs :: rest) =
      Node.element t p (transformNodes cfg cs) :: transformNodes cfg rest := by
  have ht : isTarget cfg (Node.element t p cs) = false := by
    simp [isTarget, nodeProperties, h]
  simp [transformNodes, ht, transformNode]

/-- Witness for C5 at a concrete input: an id-less `h1` under behavior
`before`. -/
theorem C5_witness :
    truthy (getProp ([] : Props) "id") = false ∧
    transformNodes cfgBefore [Node.element "h1" [] [Node.text "T"]] =
      Node.element "h1" [] (transformNodes cfgBefore [Node.text "T"]) ::
        transformNodes cfgBefore [] :=
  ⟨by decide, C5_no_id_skipped cfgBefore "h1" [] [Node.text "T"] [] (by decide)⟩

/-- C5 counterexample: an id-less heading whose child is a qualifying
heading does not keep its subtree unchanged — the transform still descends
and links the inner heading. -/
theorem C5_counterexample :
    rehypeAutolinkHeadings none ⟨[hOuterNoId]⟩ =
      ⟨[.element "h1" []
        [.element "h2" [("id", .str "x")]
          [.element "a"
            [("ariaHidden", .str "true"), ("tabIndex", .num (-1)), ("href", .str "#x")]
            [contentDefaults],
           .text "T"]]]⟩ ∧
    rehypeAutolinkHeadings none ⟨[hOuterNoId]⟩ ≠ ⟨[hOuterNoId]⟩ := by
  have h1 : rehypeAutolinkHeadings none ⟨[hOuterNoId]⟩ =
      ⟨[.element "h1" []
        [.element "h2" [("id", .str "x")]
          [.element "a"
            [("ariaHidden", .str "true"), ("tabIndex", .num (-1)), ("href", .str "#x")]
            [contentDefaults],
           .text "T"]]]⟩ := by
    simp [rehypeAutolinkHeadings, resolveConfig, transformNodes, transformNode, isTarget,
      headingRank, lowerString, lowerChar, truthy, getProp, nodeProperties, chooseMethod,
      inject, headingLink, toChildren, toNode, clone, toProperties, create, jsString,
      hOuterNoId, hInner]
  refine ⟨h1, ?_⟩
  rw [h1]
  simp [hOuterNoId, hInner]

/-- C2 (amended): with behavior `substitute`, the heading's children are
replaced by exactly one wrapping link, as with `wrap`, but the link's
children are materialized from the content template rather than being the
heading's original children; `substitute` thus differs from `wrap` both in
the source of the link's children and in the properties default. -/
theorem C2_substitute_content (cfg : Config) (t : String) (p : Props) (cs rest : List Node)
    (ht : isTarget cfg (Node.element t p cs) = true)
    (hb : cfg.behavior = "substitute") :
    transformNodes cfg (Node.element t p cs :: rest) =
      Node.element t p
        [create (Node.element t p cs) (toProperties cfg.props (Node.element t p cs))
          (toChildren cfg.content (Node.element t p cs))] ::
        transformNodes cfg rest := by
  have hm : chooseMethod cfg.behavior = Method.substituteM := by
    rw [hb]
    rfl
  simp [transformNodes, ht, hm, substitute, headingLink]

/-- Witness for C2 at a concrete input: `substitute` on the sample heading
with default options. -/
theorem C2_witness :
    isTarget (resolveConfig ⟨some "substitute", none, none, none, none⟩)
      (Node.element "h2" [("id", .str "intro")] [.text "Intro"]) = true ∧
    (resolveConfig ⟨some "substitute", none, none, none, none⟩).behavior = "substitute" ∧
    transformNodes (resolveConfig ⟨some "substitute", none, none, none, none⟩)
        [Node.element "h2" [("id", .str "intro")] [.text "Intro"]] =
      Node.element "h2" [("id", .str "intro")]
        [create (Node.element "h2" [("id", .str "intro")] [.text "Intro"])
          (toProperties (resolveConfig ⟨some "substitute", none, none, none, none⟩).props
            (Node.element "h2" [("id", .str "intro")] [.text "Intro"]))
          (toChildren (resolveConfig ⟨some "substitute", none, none, none, none⟩).content
            (Node.element "h2" [("id", .str "intro")] [.text "Intro"]))] ::
        transformNodes (resolveConfig ⟨some "substitute", none, none, none, none⟩) [] :=
  ⟨by decide, rfl,
    C2_substitute_content (resolveConfig ⟨some "substitute", none, none, none, none⟩)
      "h2" [("id", .str "intro")] [.text "Intro"] [] (by decide) rfl⟩

/-- C2 counterexample: under `substitute` with default options, the link
wraps the default icon span, not the heading's original text child, so the
result differs from the wrap-like result the claim predicts. -/
theorem C2_counterexample :
    rehypeAutolinkHeadings (some ⟨some "substitute", none, none, none, none⟩) ⟨[hIntro]⟩ ≠
      ⟨[.element "h2" [("id", .str "intro")]
        [.element "a" [("tabIndex", .num (-1)), ("href", .str "#intro")] [.text "Intro"]]]⟩ ∧
    rehypeAutolinkHeadings (some ⟨some "substitute", none, none, none, none⟩) ⟨[hIntro]⟩ =
      ⟨[.element "h2" [("id", .str "intro")]
        [.element "a" [("tabIndex", .num (-1)), ("href", .str "#intro")]
          [contentDefaults]]]⟩ := by
  have h1 : rehypeAutolinkHeadings (some ⟨some "substitute", none, none, none, none⟩)
      ⟨[hIntro]⟩ =
      ⟨[.element "h2" [("id", .str "intro")]
        [.element "a" [("tabIndex", .num (-1)), ("href", .str "#intro")]
          [contentDefaults]]]⟩ := by
    simp [rehypeAutolinkHeadings, resolveConfig, transformNodes, isTarget, headingRank,
      lowerString, lowerChar, truthy, getProp, nodeProperties, chooseMethod, substitute,
      headingLink, toChildren, toNode, clone, toProperties, create, jsString, hIntro]
  refine ⟨?_, h1⟩
  rw [h1]
  simp [contentDefaults]

/-- C3 (amended): configuration never fails on an unrecognized behavior
string: a non-empty string other than the six named values resolves to
itself, selects the `inject` strategy, and — because the string is not
exactly `prepend` — the link is inserted as the heading's last child
(append placement), not its first. The empty string is falsy and falls back
to `prepend` itself. -/
theorem C3_unknown_behavior_appends (b : String) (c g : Option Tmpl)
    (pt : Option PropsTmpl) (tf : Option (Node → Bool))
    (h1 : b ≠ "after") ( _h2 : b ≠ "append") (h3 : b ≠ "before") (h4 : b ≠ "prepend")
    (h5 : b ≠ "wrap") (h6 : b ≠ "substitute") (h7 : b ≠ "") :
    (resolveConfig ⟨some b, c, g, pt, tf⟩).behavior = b ∧
    chooseMethod b = Method.inject ∧
    (∀ t p cs, (inject (resolveConfig ⟨some b, c, g, pt, tf⟩) (Node.element t p cs)).1 =
      Node.element t p
        (cs ++ [headingLink (resolveConfig ⟨some b, c, g, pt, tf⟩)
          (Node.element t p cs)])) := by
  have hb : (resolveConfig ⟨some b, c, g, pt, tf⟩).behavior = b := by
    simp [resolveConfig, h7]
  refine ⟨hb, ?_, ?_⟩
  · simp [chooseMethod, h1, h3, h5, h6]
  · intro t p cs
    simp [inject, hb, h4]

/-- Witness for C3 at a concrete input: the unrecognized behavior string
`bogus`. -/
theorem C3_witness :
    ("bogus" ≠ "after" ∧ "bogus" ≠ "append" ∧ "bogus" ≠ "before" ∧ "bogus" ≠ "prepend" ∧
      "bogus" ≠ "wrap" ∧ "bogus" ≠ "substitute" ∧ "bogus" ≠ "") ∧
    ((resolveConfig ⟨some "bogus", none, none, none, none⟩).behavior = "bogus" ∧
      chooseMethod "bogus" = Method.inject ∧
      (∀ t p cs,
        (inject (resolveConfig ⟨some "bogus", none, none, none, none⟩)
          (Node.element t p cs)).1 =
        Node.element t p
          (cs ++ [headingLink (resolveConfig ⟨some "bogus", none, none, none, none⟩)
            (Node.element t p cs)]))) :=
  ⟨⟨by decide, by decide, by decide, by decide, by decide, by decide, by decide⟩,
    C3_unknown_behavior_appends "bogus" none none none none
      (by decide) (by decide) (by decide) (by decide) (by decide) (by decide) (by decide)⟩

/-- C3 counterexample: with behavior `bogus` the link is appended as the
heading's last child, so the result is not the prepend placement the claim
predicts. -/
theorem C3_counterexample :
    rehypeAutolinkHeadings (some ⟨some "bogus", none, none, none, none⟩) ⟨[hIntro]⟩ =
      ⟨[.element "h2" [("id", .str "intro")] [.text "Intro", linkIntroDefault]]⟩ ∧
    rehypeAutolinkHeadings (some ⟨some "bogus", none, none, none, none⟩) ⟨[hIntro]⟩ ≠
      ⟨[.element "h2" [("id", .str "intro")] [linkIntroDefault, .text "Intro"]]⟩ := by
  have h1 : rehypeAutolinkHeadings (some ⟨some "bogus", none, none, none, none⟩)
      ⟨[hIntro]⟩ =
      ⟨[.element "h2" [("id", .str "intro")] [.text "Intro", linkIntroDefault]]⟩ := by
    simp [rehypeAutolinkHeadings, resolveConfig, transformNodes, isTarget, headingRank,
      lowerString, lowerChar, truthy, getProp, nodeProperties, chooseMethod, inject,
      headingLink, toChildren, toNode, clone, toProperties, create, jsString, hIntro,
      linkIntroDefault, contentDefaults]
  refine ⟨h1, ?_⟩
  rw [h1]
  simp [linkIntroDefault, contentDefaults]

/-- C7: with a grouping template configured, grouping is applied exactly
when the materialized grouping value is a single element node, whose own
children are discarded in favor of the heading/link pair; for a missing
template, an array result, or a non-element single node, the pair is
spliced in ungrouped. -/
theorem C7_grouping (cfg : Config) (n : Node) :
    (∀ g gt gp gcs, cfg.group = some g → toNode g n = .one (.element gt gp gcs) →
      aroundNodes cfg n = [.element gt gp (linkPair cfg n)]) ∧
    (cfg.group = none → aroundNodes cfg n = linkPair cfg n) ∧
    (∀ g l, cfg.group = some g → toNode g n = .many l →
      aroundNodes cfg n = linkPair cfg n) ∧
    (∀ g s, cfg.group = some g → toNode g n = .one (.text s) →
      aroundNodes cfg n = linkPair cfg n) ∧
    (∀ g s, cfg.group = some g → toNode g n = .one (.comment s) →
      aroundNodes cfg n = linkPair cfg n) := by
  refine ⟨?_, ?_, ?_, ?_, ?_⟩
  · intro g gt gp gcs hg hv
    simp [aroundNodes, hg, hv]
  · intro hg
    simp [aroundNodes, hg]
  · intro g l hg hv
    simp [aroundNodes, hg, hv]
  · intro g s hg hv
    simp [aroundNodes, hg, hv]
  · intro g s hg hv
    simp [aroundNodes, hg, hv]

/-- Witness for C7 at a concrete input: a `<div>` grouping template under
behavior `before`. -/
theorem C7_witness :
    cfgBeforeGrouped.group = some (.val (.one (.element "div" [] []))) ∧
    toNode (.val (.one (.element "div" [] []))) hIntro = .one (.element "div" [] []) ∧
    aroundNodes cfgBeforeGrouped hIntro =
      [.element "div" [] (linkPair cfgBeforeGrouped hIntro)] :=
  ⟨rfl, rfl,
    (C7_grouping cfgBeforeGrouped hIntro).1 (.val (.one (.element "div" [] [])))
      "div" [] [] rfl rfl⟩

mutual

/-- Helper: under behavior `wrap`, descending into a node is independent of
the configured content template. -/
theorem transformNode_wrap_content (c1 c2 : Tmpl) (g : Option Tmpl) (pt : Option PropsTmpl)
    (tf : Node → Bool) (n : Node) :
    transformNode ⟨"wrap", c1, g, pt, tf⟩ n = transformNode ⟨"wrap", c2, g, pt, tf⟩ n := by
  match n with
  | .element t p cs =>
    have ih := transformNodes_wrap_content c1 c2 g pt tf cs
    simp [transformNode, ih]
  | .text s => rfl
  | .comment s => rfl

/-- Helper: under behavior `wrap`, visiting a sibling list is independent of
the configured content template. -/
theorem transformNodes_wrap_content (c1 c2 : Tmpl) (g : Option Tmpl) (pt : Option PropsTmpl)
    (tf : Node → Bool) (ns : List Node) :
    transformNodes ⟨"wrap", c1, g, pt, tf⟩ ns = transformNodes ⟨"wrap", c2, g, pt, tf⟩ ns := by
  match ns with
  | [] => simp [transformNodes]
  | n :: rest =>
    have ihn := transformNode_wrap_content c1 c2 g pt tf n
    have ih := transformNodes_wrap_content c1 c2 g pt tf rest
    have htEq : isTarget ⟨"wrap", c1, g, pt, tf⟩ n = isTarget ⟨"wrap", c2, g, pt, tf⟩ n := rfl
    by_cases ht : isTarget ⟨"wrap", c1, g, pt, tf⟩ n = true
    · have ht2 : isTarget ⟨"wrap", c2, g, pt, tf⟩ n = true := htEq ▸ ht
      have hw : wrap ⟨"wrap", c1, g, pt, tf⟩ n = wrap ⟨"wrap", c2, g, pt, tf⟩ n := by
        cases n <;> rfl
      simp [transformNodes, ht, ht2, chooseMethod, hw, ih]
    · have ht2 : ¬isTarget ⟨"wrap", c2, g, pt, tf⟩ n = true := htEq ▸ ht
      simp [transformNodes, ht, ht2, ihn, ih]

end

/-- C10: with behavior `wrap`, the configured content template is never
materialized or invoked — the whole transform's output is unchanged under
replacing the content template by any other (in particular a generator
function is never called) — and the new link's children are exactly the
heading's original child sequence. -/
theorem C10_wrap_ignores_content :
    (∀ (c1 c2 : Tmpl) (g : Option Tmpl) (pt : Option PropsTmpl) (tf : Node → Bool)
      (ns : List Node),
      transformNodes ⟨"wrap", c1, g, pt, tf⟩ ns = transformNodes ⟨"wrap", c2, g, pt, tf⟩ ns) ∧
    (∀ cfg t p cs, (wrap cfg (Node.element t p cs)).1 =
      Node.element t p
        [create (Node.element t p cs) (toProperties cfg.props (Node.element t p cs)) cs]) :=
  ⟨fun c1 c2 g pt tf ns => transformNodes_wrap_content c1 c2 g pt tf ns,
    fun _ _ _ _ => rfl⟩

/-- C6: materializing a static template for two headings in the same run
performs two fresh deep copies: the copies' node identities are disjoint
from each other and from the template's own storage, while both copies are
structurally equal to the template — so mutating one inserted copy can
never affect the other heading's copy or the original template. -/
theorem C6_clone_disjoint (t : ANode) (c : Nat) (h : ∀ i ∈ idsA t, i < c) :
    (∀ i ∈ idsA (cloneAlloc t c).1, i ∉ idsA (cloneAlloc t (cloneAlloc t c).2).1) ∧
    (∀ i ∈ idsA (cloneAlloc t c).1, i ∉ idsA t) ∧
    (∀ i ∈ idsA (cloneAlloc t (cloneAlloc t c).2).1, i ∉ idsA t) ∧
    eraseA (cloneAlloc t c).1 = eraseA t ∧
    eraseA (cloneAlloc t (cloneAlloc t c).2).1 = eraseA t := by
  obtain ⟨i1, c1, e1⟩ := cloneAlloc_spec t c
  obtain ⟨i2, c2, e2⟩ := cloneAlloc_spec t (cloneAlloc t c).2
  refine ⟨?_, ?_, ?_, e1, e2⟩
  · intro i hi hj
    rw [i1] at hi
    rw [i2, c1] at hj
    have m1 := List.mem_range'_1.mp hi
    have m2 := List.mem_range'_1.mp hj
    omega
  · intro i hi hj
    rw [i1] at hi
    have m1 := List.mem_range'_1.mp hi
    have m2 := h i hj
    omega
  · intro i hi hj
    rw [i2, c1] at hi
    have m1 := List.mem_range'_1.mp hi
    have m2 := h i hj
    omega

/-- Witness for C6 at a concrete input: the identity-annotated icon-span
template with identities 0 and 1, cloned twice from counter 2. -/
theorem C6_witness :
    (∀ i ∈ idsA tmpl0, i < 2) ∧
    ((∀ i ∈ idsA (cloneAlloc tmpl0 2).1,
        i ∉ idsA (cloneAlloc tmpl0 (cloneAlloc tmpl0 2).2).1) ∧
      (∀ i ∈ idsA (cloneAlloc tmpl0 2).1, i ∉ idsA tmpl0) ∧
      (∀ i ∈ idsA (cloneAlloc tmpl0 (cloneAlloc tmpl0 2).2).1, i ∉ idsA tmpl0) ∧
      eraseA (cloneAlloc tmpl0 2).1 = eraseA tmpl0 ∧
      eraseA (cloneAlloc tmpl0 (cloneAlloc tmpl0 2).2).1 = eraseA tmpl0) := by
  have hyp : ∀ i ∈ idsA tmpl0, i < 2 := by
    intro i hi
    simp [tmpl0, idsA, idsListA] at hi
    omega
  exact ⟨hyp, C6_clone_disjoint tmpl0 2 hyp⟩

end Rehype
